import Mathlib

/-!
Shallow embedding of the storyboard-to-video rendering pipeline:
the storyboard generator (`src/lib/storyboard.ts`), the frame renderer
(`src/lib/video.ts`) and the video assembler (the `generate` function of the
`useVideoGenerator` hook).  JavaScript numbers are modelled as rationals,
JavaScript strings either as `String` or as `List Char` (for the character
level algorithms), thrown exceptions as `Except String`, and the ambient
randomness (`Math.random`, `crypto.randomUUID`) as injected parameters.
-/

namespace StoryPipe

/-! ## Character-list utilities modelling the JavaScript string operations -/

/-- Models, as `startsWithL pat s`, the check that `s` starts with `pat`. -/
def startsWithL : List Char → List Char → Bool
  | [], _ => true
  | _ :: _, [] => false
  | p :: ps, c :: cs => p == c && startsWithL ps cs

/-- Models JavaScript, as `replaceFirstL pat s`, `s.replace(pat, '')` for a plain
string pattern: the first occurrence of `pat` is removed, and `s` is returned
unchanged when `pat` does not occur. -/
def replaceFirstL (pat : List Char) : List Char → List Char
  | [] => []
  | c :: rest =>
    if startsWithL pat (c :: rest) then (c :: rest).drop pat.length
    else c :: replaceFirstL pat rest

/-- Models JavaScript, as `splitOnChar sep s`, `s.split(sep)` for a single-character
separator: consecutive separators produce empty fields and the result is never
empty. -/
def splitOnChar (sep : Char) : List Char → List (List Char)
  | [] => [[]]
  | c :: rest =>
    let r := splitOnChar sep rest
    if c = sep then [] :: r
    else
      match r with
      | [] => [[c]]
      | w :: ws => (c :: w) :: ws

/-- Joining with a single-character separator (the inverse of `splitOnChar`). -/
def joinWithChar (sep : Char) : List (List Char) → List Char
  | [] => []
  | [w] => w
  | w :: ws => w ++ sep :: joinWithChar sep ws

/-- Models JavaScript, as `trimL s`, `s.trim()`: whitespace is removed from both
ends of the string. -/
def trimL (s : List Char) : List Char :=
  ((s.dropWhile Char.isWhitespace).reverse.dropWhile Char.isWhitespace).reverse

/-- Models JavaScript, as `stripPct s`, `s.replace(/\d+%/, '')`: the first maximal
run of ASCII digits that is immediately followed by `%` is removed, together
with that `%`. -/
def stripPct : List Char → List Char
  | [] => []
  | c :: rest =>
    if c.isDigit then
      match h : rest.dropWhile Char.isDigit with
      | '%' :: tail => tail
      | other => (c :: rest.takeWhile Char.isDigit) ++ stripPct other
    else c :: stripPct rest
termination_by s => s.length
decreasing_by
  · simp only [List.length_cons]
    have hle : (rest.dropWhile Char.isDigit).length ≤ rest.length :=
      (List.dropWhile_sublist Char.isDigit).length_le
    rw [h] at hle
    omega
  · simp

/-! ## Data model (`src/types/storyboard.ts`) -/

/-- The closed tone enum of `StoryBrief`. -/
inductive VideoTone
  | inspirational
  | educational
  | playful
  | direct
deriving DecidableEq, Inhabited

/-- The closed length enum of `StoryBrief`. -/
inductive VideoLength
  | short
  | medium
  | long
deriving DecidableEq, Inhabited

/-- The creative brief supplied by the caller. -/
structure StoryBrief where
  idea : String
  audience : String
  tone : VideoTone
  callToAction : String
  length : VideoLength
deriving DecidableEq, Inhabited

/-- The tagged background union. -/
inductive BackgroundStyle
  | gradient (value : String)
  | image (value : String)
  | color (value : String)
deriving DecidableEq, Inhabited

/-- The overlay contrast palette selector. -/
inductive Overlay
  | light
  | dark
deriving DecidableEq, Inhabited

/-- One storyboard scene.  The optional TypeScript field `cta?: string` is
modelled as `Option String`: `none` is an absent field, `some s` a present
string value. -/
structure Scene where
  id : String
  title : String
  narration : String
  supportingPoint : String
  duration : ℚ
  background : BackgroundStyle
  overlay : Overlay
  cta : Option String := none
deriving DecidableEq, Inhabited

/-! ## Storyboard generator (`src/lib/storyboard.ts`) -/

/-- A named gradient from the fixed palette. -/
structure GradientDef where
  name : String
  value : String
deriving DecidableEq, Inhabited

/-- The fixed palette of five named gradients. -/
def gradients : List GradientDef :=
  [ { name := "Aurora"
      value := "linear-gradient(135deg, rgba(17,24,39,1) 0%, rgba(59,130,246,1) 50%, rgba(236,72,153,1) 100%)" }
  , { name := "Sunrise"
      value := "linear-gradient(135deg, rgba(248,113,113,1) 0%, rgba(253,186,116,1) 52%, rgba(163,230,53,1) 100%)" }
  , { name := "Neon Night"
      value := "linear-gradient(135deg, rgba(124,58,237,1) 0%, rgba(56,189,248,1) 45%, rgba(34,197,94,1) 100%)" }
  , { name := "Sunkissed"
      value := "linear-gradient(135deg, rgba(251,146,60,1) 0%, rgba(249,115,22,1) 45%, rgba(244,63,94,1) 100%)" }
  , { name := "Slate"
      value := "linear-gradient(135deg, rgba(15,23,42,1) 0%, rgba(71,85,105,1) 52%, rgba(148,163,184,1) 100%)" } ]

/-- A tone profile: three pools of narration strings plus a default overlay. -/
structure ToneProfile where
  hook : List String
  support : List String
  close : List String
  overlay : Overlay
deriving DecidableEq, Inhabited

/-- The `toneProfiles` record, keyed by `brief.tone`. -/
def toneProfiles : VideoTone → ToneProfile
  | .inspirational =>
    { hook :=
        [ "Imagine what happens when creativity meets automation."
        , "This is your sign to share your next big vision."
        , "Turn ideas into impact with the right momentum." ]
      support :=
        [ "Show up consistently with content that energizes your audience."
        , "Pair your message with visuals that spark emotion."
        , "Deliver storytelling that keeps people watching to the very end." ]
      close :=
        [ "Ready to go from idea to post in minutes?"
        , "Let your brand speak with clarity every time you publish."
        , "It is your turn to lead the conversation on your niche." ]
      overlay := .light }
  | .educational =>
    { hook :=
        [ "Here is how to simplify your content workflow."
        , "Let’s break down a smarter way to plan your videos."
        , "Stop guessing what to post—follow this framework." ]
      support :=
        [ "Structure your message with concise talking points and visuals."
        , "Automated editing keeps your video polished and on-brand."
        , "Optimize watch time with pacing tuned per segment." ]
      close :=
        [ "Put this playbook to work on your next post."
        , "Level-up your consistency without burning out."
        , "Teach, inspire, and convert with videos that land." ]
      overlay := .dark }
  | .playful =>
    { hook :=
        [ "Let’s turn your bold ideas into scroll-stopping reels."
        , "Bring the fun back into posting with effortless automation."
        , "Your audience is ready—let’s surprise them today." ]
      support :=
        [ "Auto-generated scenes keep the energy upbeat."
        , "Switch between hooks, payoffs, and CTAs seamlessly."
        , "Dynamic backgrounds do the heavy lifting for you." ]
      close :=
        [ "It is time to drop your next viral moment."
        , "Press publish and own the spotlight."
        , "Stay playful, stay consistent, stay memorable." ]
      overlay := .light }
  | .direct =>
    { hook :=
        [ "Stop losing time editing videos from scratch."
        , "Here is the automation stack your Instagram needs."
        , "Hit publish with confidence on every campaign." ]
      support :=
        [ "AI-assisted scripts map directly to compelling visuals."
        , "Batch-create videos, then auto-schedule them on Instagram."
        , "Analytics-ready chapters let you track what resonates." ]
      close :=
        [ "Plug this system into your workflow today."
        , "Scale your posting cadence without sacrificing quality."
        , "Own your niche with consistent, high-impact content." ]
      overlay := .dark }

/-- The duration template keyed by `brief.length`. -/
def durationsByLength : VideoLength → List ℚ
  | .short => [4, 4, 5]
  | .medium => [4, 5, 6, 5]
  | .long => [4, 5, 6, 4, 6]

/-- The string rendering of a tone value (JavaScript template interpolation of
the `brief.tone` union value). -/
def toneText : VideoTone → String
  | .inspirational => "inspirational"
  | .educational => "educational"
  | .playful => "playful"
  | .direct => "direct"

/-- The rotating `supportingDetails` template pool, indexed by
`index % supportingDetails.length` (the pool has five entries). -/
def supportingDetail : ℕ → StoryBrief → String
  | 0, brief =>
    "Built specifically for " ++
      (if brief.audience = "" then "modern creators" else brief.audience) ++
      ", every scene focuses on " ++
      (if brief.callToAction = "" then "your CTA" else brief.callToAction) ++ "."
  | 1, brief =>
    "Optimized pacing keeps watch-time high even on " ++
      (if brief.length = VideoLength.short then "snackable" else "longer") ++ " clips."
  | 2, _ => "Smart overlays auto-balance contrast so captions always stay readable."
  | 3, _ => "Export-ready for Instagram Reels, Stories, and carousel covers."
  | _, brief =>
    "Fine-tuned tone to match a " ++ toneText brief.tone ++ " voice without extra revisions."

/-- Models, as `pick`, the draw `items[Math.floor(Math.random() * items.length)]`.  The
ambient random draw is abstracted as an injected natural number `r`; the chosen
index is `r % items.length`, which ranges over exactly the indices the source
can produce. -/
def pick {α : Type} [Inhabited α] (r : ℕ) (items : List α) : α :=
  items.getD (r % items.length) default

/-- Picks, as `pickGradient`, a random gradient from the fixed palette. -/
def pickGradient (r : ℕ) : BackgroundStyle :=
  .gradient (pick r gradients).value

/-- The body of the arrow function passed to `durations.map` in
`generateStoryboard`: builds the scene at position `index` with the given
`duration`, where `total` is the number of entries of the duration template.
`rnd (2 * index)` is the random draw used for the narration pick and
`rnd (2 * index + 1)` the draw used for the gradient pick of this scene. -/
def sceneAt (rnd : ℕ → ℕ) (baseIdSegment : String) (brief : StoryBrief)
    (total index : ℕ) (duration : ℚ) : Scene :=
  let toneProfile := toneProfiles brief.tone
  let id := baseIdSegment ++ "-" ++ toString index
  if index = 0 then
    { id := id
      title := if brief.idea = "" then "Idea Launchpad" else brief.idea
      narration := pick (rnd (2 * index)) toneProfile.hook
      supportingPoint := supportingDetail (index % 5) brief
      duration := duration
      background := pickGradient (rnd (2 * index + 1))
      overlay := toneProfile.overlay }
  else if index = total - 1 then
    { id := id
      title := "Close & Convert"
      narration := pick (rnd (2 * index)) toneProfile.close
      supportingPoint :=
        if brief.callToAction = "" then "Drop your CTA here before publishing."
        else "Next step: " ++ brief.callToAction
      duration := duration
      background := pickGradient (rnd (2 * index + 1))
      overlay := toneProfile.overlay
      cta := some brief.callToAction }
  else
    { id := id
      title := if index = 1 then "Show The Payoff" else "Keep The Energy"
      narration := pick (rnd (2 * index)) toneProfile.support
      supportingPoint := supportingDetail (index % 5) brief
      duration := duration
      background := pickGradient (rnd (2 * index + 1))
      overlay := toneProfile.overlay }

/-- Index-carrying map over the duration template, modelling
`durations.map((duration, index) => ...)`. -/
def buildScenes (mk : ℕ → ℚ → Scene) : ℕ → List ℚ → List Scene
  | _, [] => []
  | i, d :: ds => mk i d :: buildScenes mk (i + 1) ds

/-- The storyboard generator `generateStoryboard`.  The ambient randomness is abstracted: `rnd` yields
the per-call random draws used by `pick`, and `baseIdSegment` stands for
`crypto.randomUUID().split('-')[0]`. -/
def generateStoryboard (rnd : ℕ → ℕ) (baseIdSegment : String) (brief : StoryBrief) :
    List Scene :=
  let durations := durationsByLength brief.length
  buildScenes (sceneAt rnd baseIdSegment brief durations.length) 0 durations

/-! ## Frame renderer (`src/lib/video.ts`) -/

/-- Render options; absent fields fall back to the defaults
(1080 by 1920, Inter font stack). -/
structure RenderOptions where
  width : Option ℚ := none
  height : Option ℚ := none
  fontFamily : Option String := none
deriving DecidableEq, Inhabited

/-- The default font family string. -/
def defaultFontFamily : String :=
  "\"Inter\", \"Helvetica Neue\", Helvetica, Arial, sans-serif"

/-- One entry of the `overlayColors` record. -/
structure OverlayPalette where
  heading : String
  body : String
  accent : String
deriving DecidableEq, Inhabited

/-- The `overlayColors` record keyed by the scene overlay. -/
def overlayColors : Overlay → OverlayPalette
  | .light =>
    { heading := "#F8FAFC", body := "#E2E8F0", accent := "rgba(15, 23, 42, 0.55)" }
  | .dark =>
    { heading := "#0F172A", body := "#1E293B", accent := "rgba(248, 250, 252, 0.55)" }

/-- JavaScript `Math.round` on a (non-negative) number: round half up. -/
def jsRound (q : ℚ) : ℤ := ⌊q + 1 / 2⌋

/-- A CSS font shorthand string, modelling
`` `700 ${size}px ${fontFamily}` ``. -/
def fontStr (weight : ℕ) (size : ℤ) (fontFamily : String) : String :=
  toString weight ++ " " ++ toString size ++ "px " ++ fontFamily

/-- The mutable state of the `wrapText` word loop: the current line being
built and the committed lines. -/
structure WrapState where
  line : List Char
  lines : List (List Char)
deriving DecidableEq, Inhabited

/-- One iteration of the `words.forEach` loop of `wrapText`: try appending the
word (plus a trailing space) to the current line; when the measured width of
that test line exceeds `maxWidth` and the current line is non-empty, commit the
trimmed current line and restart from the word. -/
def wrapStep (measure : List Char → ℚ) (maxWidth : ℚ) (st : WrapState)
    (word : List Char) : WrapState :=
  let testLine := st.line ++ word ++ [' ']
  if maxWidth < measure testLine ∧ st.line ≠ [] then
    { line := word ++ [' '], lines := st.lines ++ [trimL st.line] }
  else
    { line := testLine, lines := st.lines }

/-- Word wrapping (`wrapText`): split the text on single spaces, greedily fill lines, and
return the committed lines together with `lines.length * lineHeight`.
`measure` models `ctx.measureText(...).width` under the current font. -/
def wrapText (measure : List Char → ℚ) (text : List Char)
    (maxWidth lineHeight : ℚ) : List (List Char) × ℚ :=
  let words := splitOnChar ' ' text
  let final := words.foldl (wrapStep measure maxWidth) { line := [], lines := [] }
  let lines :=
    if final.line ≠ [] then final.lines ++ [trimL final.line] else final.lines
  (lines, (lines.length : ℚ) * lineHeight)

/-- The intrinsic dimensions of a fetched image. -/
structure ImageData where
  width : ℚ
  height : ℚ
deriving DecidableEq, Inhabited

/-- The renderer environment: the image-fetch capability (`loadImage`, with
`none` modelling a rejected load) and the text measurement of the canvas
context, indexed by the current font string. -/
structure RenderEnv where
  fetchImage : String → Option ImageData
  measure : String → List Char → ℚ

/-- A canvas fill style: a solid color or a linear gradient with positioned
color stops. -/
inductive FillStyle
  | solid (color : String)
  | linearGradient (x0 y0 x1 y1 : ℚ) (stops : List (ℚ × String))
deriving DecidableEq, Inhabited

/-- A drawing command issued against the canvas. -/
inductive DrawCmd
  | fillRect (style : FillStyle) (x y w h : ℚ)
  | drawImageCover (src : String) (sx sy sw sh dx dy dw dh : ℚ)
deriving DecidableEq, Inhabited

/-- The token list of the gradient parser: the literal `linear-gradient(` and
the first `)` are removed, the remainder is split on commas and every piece is
trimmed. -/
def gradientTokens (value : String) : List String :=
  (splitOnChar ','
      (replaceFirstL (")".data) (replaceFirstL ("linear-gradient(".data) value.data))).map
    (fun t => String.mk (trimL t))

/-- The color-stop strings used by the gradient branch of `drawBackground`:
when fewer than three tokens were parsed, the fixed three-color default is
used; otherwise every token after the first has its first percent marker stripped and is trimmed. -/
def parseGradientStops (value : String) : List String :=
  if 3 ≤ (gradientTokens value).length then
    ((gradientTokens value).drop 1).map (fun t => String.mk (trimL (stripPct t.data)))
  else
    ["#0f172a", "#1e293b", "#3b82f6"]

/-- Evenly spaced gradient stops:
`gradient.addColorStop(index / Math.max(colors.length - 1, 1), color)`. -/
def gradientStopList (colors : List String) : List (ℚ × String) :=
  colors.enum.map (fun p => ((p.1 : ℚ) / ((max (colors.length - 1) 1 : ℕ) : ℚ), p.2))

/-- Background painting (`drawBackground`): dispatch on the background kind.  A gradient paints a
full-canvas linear gradient from the top-left to the bottom-right corner; a
color is a flat fill; an image is fetched (a failed fetch raises
`Failed to load image <url>`), scaled to cover and center-cropped.  The
scratch-canvas context acquisition is assumed to succeed. -/
def drawBackground (env : RenderEnv) (scene : Scene) (width height : ℚ) :
    Except String (List DrawCmd) :=
  match scene.background with
  | .gradient value =>
    .ok [.fillRect
          (.linearGradient 0 0 width height (gradientStopList (parseGradientStops value)))
          0 0 width height]
  | .color value =>
    .ok [.fillRect (.solid value) 0 0 width height]
  | .image value =>
    match env.fetchImage value with
    | none => .error ("Failed to load image " ++ value)
    | some image =>
      let ratio := max (width / image.width) (height / image.height)
      let targetWidth := image.width * ratio
      let targetHeight := image.height * ratio
      let offsetX := (targetWidth - width) / 2
      let offsetY := (targetHeight - height) / 2
      .ok [.drawImageCover value offsetX offsetY width height 0 0 width height]

/-- The CTA pill composited below the supporting block. -/
structure CtaButton where
  x : ℚ
  y : ℚ
  w : ℚ
  h : ℚ
  fillColor : String
  textColor : String
  label : String
deriving DecidableEq, Inhabited

/-- JavaScript truthiness of the optional `scene.cta` string: `undefined` and
the empty string are falsy. -/
def ctaTruthy : Option String → Bool
  | none => false
  | some s => s != ""

/-- The composited frame: background commands, overlay panel, the three
word-wrapped text blocks (in top-to-bottom order) and the optional CTA
button. -/
structure FrameDesc where
  widthPx : ℚ
  heightPx : ℚ
  backgroundCmds : List DrawCmd
  overlayPanel : DrawCmd
  headingLines : List (List Char)
  narrationLines : List (List Char)
  supportingLines : List (List Char)
  ctaButton : Option CtaButton
deriving DecidableEq, Inhabited

/-- Frame rendering (`renderSceneToFrame`): resolve options, draw the background (propagating a
failed image load), paint the translucent overlay panel, lay out the heading,
narration and supporting blocks with `wrapText`, and draw the CTA button when
`scene.cta` is truthy. -/
def renderSceneToFrame (env : RenderEnv) (scene : Scene)
    (options : RenderOptions) : Except String FrameDesc :=
  let width := options.width.getD 1080
  let height := options.height.getD 1920
  let fontFamily := options.fontFamily.getD defaultFontFamily
  match drawBackground env scene width height with
  | .error e => .error e
  | .ok backgroundCmds =>
    let colors := overlayColors scene.overlay
    let paddingX := width * 0.08
    let paddingTop := height * 0.15
    let panel :=
      DrawCmd.fillRect (.solid colors.accent) paddingX (paddingTop - 40)
        (width - paddingX * 2) (height * 0.55)
    let headingFont := fontStr 700 (jsRound (width * 0.06)) fontFamily
    let heading :=
      wrapText (env.measure headingFont) scene.title.toUpper.data
        (width - paddingX * 2 - 80) ((jsRound (width * 0.07) : ℤ) : ℚ)
    let bodyTop := paddingTop + heading.2 + height * 0.04
    let bodyFont := fontStr 500 (jsRound (width * 0.045)) fontFamily
    let narration :=
      wrapText (env.measure bodyFont) scene.narration.data
        (width - paddingX * 2 - 80) ((jsRound (width * 0.055) : ℤ) : ℚ)
    let supportingTop := bodyTop + narration.2 + height * 0.03
    let supportFont := fontStr 400 (jsRound (width * 0.035)) fontFamily
    let supporting :=
      wrapText (env.measure supportFont) scene.supportingPoint.data
        (width - paddingX * 2 - 80) ((jsRound (width * 0.045) : ℤ) : ℚ)
    let ctaButton :=
      if ctaTruthy scene.cta then
        let ctaY := supportingTop + supporting.2 + height * 0.05
        let buttonWidth := width * 0.6
        let buttonHeight := ((jsRound (height * 0.07) : ℤ) : ℚ)
        let buttonX := width / 2 - buttonWidth / 2
        some { x := buttonX
               y := ctaY
               w := buttonWidth
               h := buttonHeight
               fillColor :=
                 if scene.overlay = .light then "rgba(15, 23, 42, 0.85)" else "#F8FAFC"
               textColor :=
                 if scene.overlay = .light then "#F8FAFC" else "#0F172A"
               label := scene.cta.getD ("") }
      else none
    .ok { widthPx := width
          heightPx := height
          backgroundCmds := backgroundCmds
          overlayPanel := panel
          headingLines := heading.1
          narrationLines := narration.1
          supportingLines := supporting.1
          ctaButton := ctaButton }

/-! ## Video assembler (`generate` of the `useVideoGenerator` hook) -/

/-- The lifecycle of the process-wide FFmpeg encoder:
`uninitialized` (before `createFFmpeg` has produced the instance, so
`ffmpegRef.current` is still null), `loading` (the instance is stored in the
ref and `ffmpegInstance.load()` is pending, `isReady` false), `ready`
(`load()` resolved, `isReady` true) and `loadFailed` (`load()` rejected,
`isReady` left false). -/
inductive FFState
  | uninitialized
  | loading
  | ready
  | loadFailed
deriving DecidableEq, Inhabited

/-- Whether `ffmpegRef.current` is non-null in the given lifecycle state: the
ref is assigned immediately after `createFFmpeg`, before the core load is
awaited. -/
def ffmpegRefSet : FFState → Bool
  | .uninitialized => false
  | .loading => true
  | .ready => true
  | .loadFailed => true

/-- Modelled from the spec: the readiness guard of the embedded encoder
library (`@ffmpeg/ffmpeg` 0.11, a dependency whose code is not among the
repository sources).  Its `FS` and `run` entry points throw their own
not-ready error until `load()` has resolved and assigned the core, matching
the spec's encoder state machine (`uninitialized → loading → ready`, or
terminal `load-failed`): render calls are rejected with a not-ready error in
every state except `ready`. -/
def ffmpegCoreLoaded : FFState → Bool
  | .ready => true
  | _ => false

/-- The not-ready error message thrown by the encoder library's `FS` and
`run` calls while the core is unloaded. -/
def ffmpegWasmNotReadyMsg : String :=
  "ffmpeg.wasm is not ready, make sure you have completed load()"

/-- JavaScript `String(index).padStart(2, '0')`. -/
def padStart2 (s : String) : String :=
  String.mk (List.replicate (2 - s.length) '0') ++ s

/-- The scratch filename of the frame at the given index:
`` `frame-${String(index).padStart(2, '0')}.png` ``. -/
def frameName (index : ℕ) : String :=
  "frame-" ++ padStart2 (toString index) ++ ".png"

/-- One line of the concat manifest `frames.txt`: a `file '<name>'` directive
or a `duration <seconds>` directive. -/
inductive ManifestLine
  | file (name : String)
  | duration (seconds : ℚ)
deriving DecidableEq, Inhabited

/-- Whether a manifest line is a `file` directive. -/
def ManifestLine.isFileLine : ManifestLine → Bool
  | .file _ => true
  | .duration _ => false

/-- Whether a manifest line is a `duration` directive. -/
def ManifestLine.isDurationLine : ManifestLine → Bool
  | .file _ => false
  | .duration _ => true

/-- The manifest lines pushed by the scene loop, starting at frame index `i`:
for every scene, a `file` directive for its frame followed by a `duration`
directive with the scene duration. -/
def manifestLoop : ℕ → List Scene → List ManifestLine
  | _, [] => []
  | i, scene :: rest =>
    .file (frameName i) :: .duration scene.duration :: manifestLoop (i + 1) rest

/-- The progress values reported inside the scene loop:
`(index / scenes.length) * 50` after each frame. -/
def progressLoop (total : ℕ) : List ℚ :=
  (List.range total).map (fun index : ℕ => ((index : ℚ) / (total : ℚ)) * 50)

/-- Sequential effectful map, modelling the `for` loop over the scenes: the
first failing render aborts the whole call. -/
def mapExcept {α β : Type} (f : α → Except String β) : List α → Except String (List β)
  | [] => .ok []
  | a :: as =>
    match f a with
    | .error e => .error e
    | .ok b =>
      match mapExcept f as with
      | .error e => .error e
      | .ok bs => .ok (b :: bs)

/-- The frame files written to the scratch filesystem, with zero-padded
sequential names starting at index `i`. -/
def frameFiles : ℕ → List FrameDesc → List (String × FrameDesc)
  | _, [] => []
  | i, f :: fs => (frameName i, f) :: frameFiles (i + 1) fs

/-- JavaScript `name.match(/\.[a-zA-Z0-9]+$/)`, defaulting to `.mp3`: the
audio extension is the final dot followed by one or more ASCII alphanumeric
characters, when the name ends that way. -/
def getExtension (name : String) : String :=
  let r := name.data.reverse
  let run := r.takeWhile Char.isAlphanum
  match r.dropWhile Char.isAlphanum with
  | '.' :: _ => if run.isEmpty then ".mp3" else String.mk ('.' :: run.reverse)
  | _ => ".mp3"

/-- A user-supplied audio track: its file name and raw bytes. -/
structure AudioFile where
  name : String
  content : List ℕ
deriving DecidableEq, Inhabited

/-- The observable outcome of one successful `generate` call: the frame files
written to scratch storage, the concat manifest, the values passed to the
`onProgress` callback in order, the audio file written (if any) and the output
name. -/
structure GenerateResult where
  frames : List (String × FrameDesc)
  manifest : List ManifestLine
  progressReports : List ℚ
  audioWritten : Option (String × List ℕ)
  outputName : String
deriving DecidableEq, Inhabited

/-- The body of `generate` after the hook's own null-ref guard: validate the
scene list, then clean the scratch filesystem — the first `ffmpeg.FS` call,
which throws the encoder library's not-ready error while the core is
unloaded (`ffmpegCoreLoaded` false), before any frame is rendered — then
render every scene in order, write the frames, build the concat manifest
(one `file` plus one `duration` directive per scene and a final repeated
`file` directive for the last frame), write the audio track when supplied,
and report progress `0`, then `(index / total) * 50` per frame, then
`100`. -/
def generateBody (env : RenderEnv) (st : FFState) (scenes : List Scene)
    (audioFile : Option AudioFile) (outputName : String) :
    Except String GenerateResult :=
  if scenes.length = 0 then .error ("No scenes to render")
  else if ffmpegCoreLoaded st = false then .error ffmpegWasmNotReadyMsg
  else
    match mapExcept (fun scene => renderSceneToFrame env scene {}) scenes with
    | .error e => .error e
    | .ok frames =>
      .ok { frames := frameFiles 0 frames
            manifest :=
              manifestLoop 0 scenes ++ [ManifestLine.file (frameName (scenes.length - 1))]
            progressReports := 0 :: progressLoop scenes.length ++ [100]
            audioWritten :=
              audioFile.map (fun a => ("audio" ++ getExtension a.name, a.content))
            outputName := outputName }

/-- The assembler entry point `generate`: reject with `FFmpeg is not ready yet` when `ffmpegRef.current`
is null, otherwise run the render-and-encode body. -/
def generate (env : RenderEnv) (st : FFState) (scenes : List Scene)
    (audioFile : Option AudioFile) (outputName : String) :
    Except String GenerateResult :=
  if ffmpegRefSet st = false then .error ("FFmpeg is not ready yet")
  else generateBody env st scenes audioFile outputName

/-! ## Concrete inputs used by the witnesses -/

/-- A renderer environment whose text measure is constantly zero and whose
image fetch always fails. -/
def env0 : RenderEnv :=
  { fetchImage := fun _ => none, measure := fun _ _ => 0 }

/-- A length-based (monospace) text measure. -/
def lenMeasure : List Char → ℚ := fun s => (s.length : ℚ)

/-- A plain demo scene with a solid color background and no CTA. -/
def demoScene : Scene :=
  { id := "demo-0"
    title := "Launch"
    narration := "Go"
    supportingPoint := "Now"
    duration := 4
    background := .color ("#112233")
    overlay := .light }

/-- A demo scene carrying a non-empty CTA. -/
def demoCtaScene : Scene :=
  { demoScene with id := "demo-cta", cta := some ("Join now") }

/-- A demo scene whose CTA is the empty string. -/
def demoEmptyCtaScene : Scene :=
  { demoScene with id := "demo-empty-cta", cta := some ("") }

/-- A demo scene with an image background. -/
def demoImageScene : Scene :=
  { demoScene with id := "demo-img", background := .image ("https://cdn.example/bg.png") }

/-- A demo scene whose gradient style string has no parseable stops. -/
def demoBadGradientScene : Scene :=
  { demoScene with id := "demo-bad-gradient", background := .gradient ("red") }

/-- A demo brief with non-blank idea and call to action. -/
def demoBrief : StoryBrief :=
  { idea := "Launch"
    audience := "creators"
    tone := .direct
    callToAction := "Join now"
    length := .short }

/-- A demo brief whose call to action is the empty string. -/
def demoBriefNoCta : StoryBrief :=
  { demoBrief with callToAction := "" }

/-- The frame rendered for the demo CTA scene. -/
def demoCtaFrame : FrameDesc :=
  (renderSceneToFrame env0 demoCtaScene {}).toOption.getD default

/-- The frame rendered for the demo empty-CTA scene. -/
def demoEmptyCtaFrame : FrameDesc :=
  (renderSceneToFrame env0 demoEmptyCtaScene {}).toOption.getD default

/-- The result of a demo `generate` call in the `ready` state. -/
def demoGenerateResult : GenerateResult :=
  (generate env0 .ready [demoScene] none ("out.mp4")).toOption.getD default

/-! ## Helper lemmas about the storyboard generator -/

theorem buildScenes_length (mk : ℕ → ℚ → Scene) (k : ℕ) (ds : List ℚ) :
    (buildScenes mk k ds).length = ds.length := by
  induction ds generalizing k with
  | nil => rfl
  | cons d ds ih => simp [buildScenes, ih]

theorem sceneAt_duration (rnd : ℕ → ℕ) (baseId : String) (brief : StoryBrief)
    (total index : ℕ) (d : ℚ) :
    (sceneAt rnd baseId brief total index d).duration = d := by
  unfold sceneAt
  split
  · rfl
  · split <;> rfl

theorem buildScenes_get? (mk : ℕ → ℚ → Scene) (ds : List ℚ) (k i : ℕ) :
    (buildScenes mk k ds).get? i = (ds.get? i).map (fun d => mk (k + i) d) := by
  induction ds generalizing k i with
  | nil => simp [buildScenes]
  | cons d ds ih =>
    cases i with
    | zero => simp [buildScenes]
    | succ i =>
      have h : k + 1 + i = k + (i + 1) := by omega
      simpa [buildScenes, h] using ih (k + 1) i

theorem durationsByLength_pos (len : VideoLength) :
    ∀ d ∈ durationsByLength len, 0 < d := by
  cases len <;> decide

/-- C3: for every valid brief, `generateStoryboard` returns a non-empty scene
sequence whose length matches the duration template for `brief.length`
(short gives 3 scenes, medium 4, long 5), whose scene durations are exactly
the template entries in order, and all of whose durations are positive. -/
theorem claim_C3_storyboard_shape (rnd : ℕ → ℕ) (baseId : String) (brief : StoryBrief) :
    (generateStoryboard rnd baseId brief).length =
      (match brief.length with
       | VideoLength.short => 3
       | VideoLength.medium => 4
       | VideoLength.long => 5) ∧
    generateStoryboard rnd baseId brief ≠ [] ∧
    (∀ i : ℕ, ((generateStoryboard rnd baseId brief).get? i).map Scene.duration =
      (durationsByLength brief.length).get? i) ∧
    ∀ scene ∈ generateStoryboard rnd baseId brief, 0 < scene.duration := by
  have hget : ∀ i : ℕ,
      ((generateStoryboard rnd baseId brief).get? i).map Scene.duration =
        (durationsByLength brief.length).get? i := by
    intro i
    unfold generateStoryboard
    rw [buildScenes_get?]
    cases (durationsByLength brief.length).get? i with
    | none => rfl
    | some d => simp [sceneAt_duration]
  refine ⟨?_, ?_, hget, ?_⟩
  · unfold generateStoryboard
    rw [buildScenes_length]
    cases brief.length <;> rfl
  · intro h
    have hlen : (generateStoryboard rnd baseId brief).length =
        (durationsByLength brief.length).length := by
      unfold generateStoryboard; rw [buildScenes_length]
    rw [h] at hlen
    cases hb : brief.length <;> rw [hb] at hlen <;> simp [durationsByLength] at hlen
  · intro scene hmem
    obtain ⟨i, hi⟩ := List.mem_iff_get?.mp hmem
    have := hget i
    rw [hi] at this
    exact durationsByLength_pos brief.length _ (List.get?_mem this.symm)

/-- Witness for C3 at a concrete brief: three scenes, first duration 4. -/
theorem claim_C3_witness :
    (generateStoryboard (fun _ => 0) ("seed") demoBrief).length = 3 ∧
    ((generateStoryboard (fun _ => 0) ("seed") demoBrief).get? 0).map Scene.duration =
      some 4 := by
  obtain ⟨h1, _, h3, _⟩ := claim_C3_storyboard_shape (fun _ => 0) ("seed") demoBrief
  exact ⟨h1, (h3 0).trans rfl⟩

/-- C7: the first scene title equals `brief.idea` when the idea is non-blank,
and the last scene CTA equals `brief.callToAction` when it is non-blank
(non-blank strings are modelled as being non-empty). -/
theorem claim_C7_first_title_last_cta (rnd : ℕ → ℕ) (baseId : String)
    (brief : StoryBrief) :
    (brief.idea ≠ "" →
      (generateStoryboard rnd baseId brief).head?.map Scene.title = some brief.idea) ∧
    (brief.callToAction ≠ "" →
      (generateStoryboard rnd baseId brief).getLast?.map Scene.cta =
        some (some brief.callToAction)) := by
  obtain ⟨idea, audience, tone, ctaText, len⟩ := brief
  constructor
  · intro h
    cases len <;>
      simp_all [generateStoryboard, durationsByLength, buildScenes, sceneAt]
  · intro h
    cases len <;>
      simp_all [generateStoryboard, durationsByLength, buildScenes, sceneAt]

/-- Witness for C7 at a concrete brief. -/
theorem claim_C7_witness :
    (generateStoryboard (fun _ => 0) ("seed") demoBrief).head?.map Scene.title =
      some ("Launch") ∧
    (generateStoryboard (fun _ => 0) ("seed") demoBrief).getLast?.map Scene.cta =
      some (some ("Join now")) := by
  obtain ⟨h1, h2⟩ := claim_C7_first_title_last_cta (fun _ => 0) ("seed") demoBrief
  exact ⟨h1 (by decide), h2 (by decide)⟩

/-- C10: a brief whose `callToAction` is the empty string yields a last scene
whose `cta` field is present but empty (`some ""`, not `none`), and the
renderer treats an empty-string CTA exactly like an absent one: no CTA button
is drawn. -/
theorem claim_C10_empty_cta (rnd : ℕ → ℕ) (baseId : String) (brief : StoryBrief)
    (h : brief.callToAction = "") :
    (generateStoryboard rnd baseId brief).getLast?.map Scene.cta = some (some ("")) ∧
    (∀ (env : RenderEnv) (scene : Scene) (options : RenderOptions) (frame : FrameDesc),
      scene.cta = some ("") → renderSceneToFrame env scene options = .ok frame →
      frame.ctaButton = none) := by
  constructor
  · obtain ⟨idea, audience, tone, ctaText, len⟩ := brief
    cases len <;>
      simp_all [generateStoryboard, durationsByLength, buildScenes, sceneAt]
  · intro env scene options frame hcta hok
    simp only [renderSceneToFrame] at hok
    cases hbg : drawBackground env scene (options.width.getD 1080)
        (options.height.getD 1920) with
    | error e => rw [hbg] at hok; simp at hok
    | ok bg =>
      rw [hbg] at hok
      simp only [Except.ok.injEq] at hok
      subst hok
      simp [hcta, ctaTruthy]

/-- Witness for C10 at a concrete brief and scene. -/
theorem claim_C10_witness :
    (generateStoryboard (fun _ => 0) ("seed") demoBriefNoCta).getLast?.map Scene.cta =
      some (some ("")) ∧
    demoEmptyCtaFrame.ctaButton = none := by
  obtain ⟨h1, h2⟩ := claim_C10_empty_cta (fun _ => 0) ("seed") demoBriefNoCta rfl
  exact ⟨h1, h2 env0 demoEmptyCtaScene {} demoEmptyCtaFrame rfl rfl⟩

/-- C9: a rendered frame contains no CTA button when `scene.cta` is absent,
and contains a CTA button carrying the CTA text whenever `scene.cta` is a
non-empty string. -/
theorem claim_C9_cta_roundtrip (env : RenderEnv) (scene : Scene)
    (options : RenderOptions) (frame : FrameDesc)
    (hok : renderSceneToFrame env scene options = .ok frame) :
    (scene.cta = none → frame.ctaButton = none) ∧
    (∀ s, scene.cta = some s → s ≠ "" →
      ∃ b, frame.ctaButton = some b ∧ b.label = s) := by
  simp only [renderSceneToFrame] at hok
  cases hbg : drawBackground env scene (options.width.getD 1080)
      (options.height.getD 1920) with
  | error e => rw [hbg] at hok; simp at hok
  | ok bg =>
    rw [hbg] at hok
    simp only [Except.ok.injEq] at hok
    subst hok
    constructor
    · intro hcta
      simp [hcta, ctaTruthy]
    · intro s hcta hs
      have ht : ctaTruthy (some s) = true := by simp [ctaTruthy, hs]
      rw [hcta, if_pos ht]
      exact ⟨_, rfl, rfl⟩

/-- Witness for C9 at a concrete scene with CTA text `Join now`. -/
theorem claim_C9_witness :
    demoCtaFrame.ctaButton.map CtaButton.label = some ("Join now") := by
  obtain ⟨b, hb, hlabel⟩ :=
    (claim_C9_cta_roundtrip env0 demoCtaScene {} demoCtaFrame rfl).2 ("Join now") rfl
      (by decide)
  rw [hb]
  simp [hlabel]

/-- C8: when the scene background is an image and the image fetch fails,
`renderSceneToFrame` raises an error naming the failing URL and returns no
frame. -/
theorem claim_C8_image_failure (env : RenderEnv) (scene : Scene)
    (options : RenderOptions) (url : String)
    (hbg : scene.background = .image url) (hfetch : env.fetchImage url = none) :
    renderSceneToFrame env scene options =
      .error ("Failed to load image " ++ url) := by
  have hdb : drawBackground env scene (options.width.getD 1080)
      (options.height.getD 1920) = .error ("Failed to load image " ++ url) := by
    unfold drawBackground
    rw [hbg]
    dsimp only
    rw [hfetch]
  simp only [renderSceneToFrame]
  rw [hdb]

/-- Witness for C8 at a concrete image scene whose fetch fails. -/
theorem claim_C8_witness :
    renderSceneToFrame env0 demoImageScene {} =
      .error ("Failed to load image " ++ "https://cdn.example/bg.png") :=
  claim_C8_image_failure env0 demoImageScene {} "https://cdn.example/bg.png" rfl rfl

/-- C6: when the gradient style string yields fewer than the three tokens the
parser needs, `drawBackground` does not fail and paints the fixed three-stop
default gradient (`#0f172a`, `#1e293b`, `#3b82f6`) across the full canvas. -/
theorem claim_C6_gradient_fallback (env : RenderEnv) (scene : Scene)
    (value : String) (width height : ℚ)
    (hbg : scene.background = .gradient value)
    (hfew : (gradientTokens value).length < 3) :
    drawBackground env scene width height =
      .ok [DrawCmd.fillRect
            (FillStyle.linearGradient 0 0 width height
              [(0, "#0f172a"), (1/2, "#1e293b"), (1, "#3b82f6")])
            0 0 width height] := by
  have hstops : parseGradientStops value = ["#0f172a", "#1e293b", "#3b82f6"] := by
    unfold parseGradientStops
    rw [if_neg (by omega)]
  have hlist : gradientStopList (parseGradientStops value) =
      [(0, "#0f172a"), (1/2, "#1e293b"), (1, "#3b82f6")] := by
    rw [hstops]
    norm_num [gradientStopList, List.enum, List.enumFrom]
  unfold drawBackground
  rw [hbg]
  dsimp only
  rw [hlist]

/-- Witness for C6 at the unparseable gradient string `red`. -/
theorem claim_C6_witness :
    drawBackground env0 demoBadGradientScene 1080 1920 =
      .ok [DrawCmd.fillRect
            (FillStyle.linearGradient 0 0 1080 1920
              [(0, "#0f172a"), (1/2, "#1e293b"), (1, "#3b82f6")])
            0 0 1080 1920] :=
  claim_C6_gradient_fallback env0 demoBadGradientScene ("red") 1080 1920 rfl (by decide)

/-- C1: while the encoder lifecycle state is `uninitialized` or `loading`, a
`generate` call over a non-empty scene list is rejected with a not-ready
error — the hook's own `FFmpeg is not ready yet` guard while the instance is
not yet created, and the encoder library's `ffmpeg.wasm is not ready` error
thrown by the scratch-cleanup `FS` call during `loading` — and no call in
these states ever returns a rendered result, so no frame is produced.  (A
`loading`-state call with an empty scene list is also rejected before any
rendering, but by the scene validation.) -/
theorem claim_C1_not_ready (env : RenderEnv) (scenes : List Scene)
    (audioFile : Option AudioFile) (outputName : String) (st : FFState)
    (hst : st = FFState.uninitialized ∨ st = FFState.loading)
    (hne : scenes ≠ []) :
    (generate env st scenes audioFile outputName =
        Except.error ("FFmpeg is not ready yet") ∨
      generate env st scenes audioFile outputName =
        Except.error ffmpegWasmNotReadyMsg) ∧
    ∀ res, generate env st scenes audioFile outputName ≠ Except.ok res := by
  have hlen : scenes.length ≠ 0 := by simpa using hne
  rcases hst with h | h <;> subst h
  · constructor
    · left
      rfl
    · intro res hok
      simp [generate, ffmpegRefSet] at hok
  · constructor
    · right
      simp only [generate, generateBody, ffmpegRefSet, ffmpegCoreLoaded]
      rw [if_neg hlen]
      simp
    · intro res hok
      simp only [generate, generateBody, ffmpegRefSet, ffmpegCoreLoaded] at hok
      rw [if_neg hlen] at hok
      simp at hok

/-- Witness for C1 at a concrete one-scene call in the `loading` state. -/
theorem claim_C1_witness :
    generate env0 FFState.loading [demoScene] none ("out.mp4") =
      Except.error ffmpegWasmNotReadyMsg := by
  rcases (claim_C1_not_ready env0 [demoScene] none ("out.mp4") FFState.loading
      (Or.inr rfl) (by simp)).1 with h | h
  · have hcomp : generate env0 FFState.loading [demoScene] none ("out.mp4") =
        Except.error ffmpegWasmNotReadyMsg := rfl
    rw [hcomp] at h
    simp only [Except.error.injEq] at h
    exact absurd h (by decide)
  · exact h

/-! ## Helper lemmas about the assembler -/

theorem manifestLoop_length (scenes : List Scene) (k : ℕ) :
    (manifestLoop k scenes).length = 2 * scenes.length := by
  induction scenes generalizing k with
  | nil => rfl
  | cons sc rest ih =>
    simp only [manifestLoop, List.length_cons, ih]
    omega

theorem isDurationLine_file (name : String) :
    (ManifestLine.file name).isDurationLine = false := rfl

theorem isDurationLine_duration (seconds : ℚ) :
    (ManifestLine.duration seconds).isDurationLine = true := rfl

theorem isFileLine_file (name : String) :
    (ManifestLine.file name).isFileLine = true := rfl

theorem isFileLine_duration (seconds : ℚ) :
    (ManifestLine.duration seconds).isFileLine = false := rfl

theorem manifestLoop_filter_duration (scenes : List Scene) (k : ℕ) :
    ((manifestLoop k scenes).filter (fun l => l.isDurationLine)).length =
      scenes.length := by
  induction scenes generalizing k with
  | nil => rfl
  | cons sc rest ih =>
    simp [manifestLoop, List.filter_cons, isDurationLine_file,
      isDurationLine_duration, ih]

theorem manifestLoop_filter_file (scenes : List Scene) (k : ℕ) :
    ((manifestLoop k scenes).filter (fun l => l.isFileLine)).length =
      scenes.length := by
  induction scenes generalizing k with
  | nil => rfl
  | cons sc rest ih =>
    simp [manifestLoop, List.filter_cons, isFileLine_file, isFileLine_duration, ih]

theorem manifestLoop_get? (scenes : List Scene) : ∀ (k i : ℕ), i < scenes.length →
    (manifestLoop k scenes).get? (2 * i) =
      some (ManifestLine.file (frameName (k + i))) ∧
    (manifestLoop k scenes).get? (2 * i + 1) =
      (scenes.get? i).map (fun sc => ManifestLine.duration sc.duration) := by
  induction scenes with
  | nil => intro k i hi; simp at hi
  | cons sc rest ih =>
    intro k i hi
    cases i with
    | zero => simp [manifestLoop]
    | succ i =>
      have hi2 : i < rest.length := by simpa using hi
      obtain ⟨h1, h2⟩ := ih (k + 1) i hi2
      have e1 : 2 * (i + 1) = 2 * i + 1 + 1 := by ring
      have e2 : 2 * (i + 1) + 1 = 2 * i + 1 + 1 + 1 := by ring
      constructor
      · rw [e1]
        simp only [manifestLoop, List.get?_cons_succ]
        rw [h1]
        have e3 : k + 1 + i = k + (i + 1) := by omega
        rw [e3]
      · rw [e2]
        simp only [manifestLoop, List.get?_cons_succ]
        exact h2

/-- Extracts the manifest and progress trace of a successful `generate`
call. -/
theorem generate_ok_elim (env : RenderEnv) (st : FFState) (scenes : List Scene)
    (audioFile : Option AudioFile) (outputName : String) (res : GenerateResult)
    (hok : generate env st scenes audioFile outputName = .ok res) :
    res.manifest =
      manifestLoop 0 scenes ++ [ManifestLine.file (frameName (scenes.length - 1))] ∧
    res.progressReports = 0 :: progressLoop scenes.length ++ [100] := by
  unfold generate at hok
  split at hok
  · exact absurd hok (by simp)
  · unfold generateBody at hok
    split at hok
    · exact absurd hok (by simp)
    · split at hok
      · exact absurd hok (by simp)
      · split at hok
        · exact absurd hok (by simp)
        · simp only [Except.ok.injEq] at hok
          rw [← hok]
          exact ⟨rfl, rfl⟩

/-- C2: for a successful `generate` over N scenes, the concat manifest has
exactly N duration directives and N+1 file directives, its final line is a
file directive naming the frame of scene N-1, and the file and duration
directives appear in scene order at the expected positions. -/
theorem claim_C2_manifest (env : RenderEnv) (st : FFState) (scenes : List Scene)
    (audioFile : Option AudioFile) (outputName : String) (res : GenerateResult)
    (hok : generate env st scenes audioFile outputName = .ok res) :
    (res.manifest.filter (fun l => l.isDurationLine)).length = scenes.length ∧
    (res.manifest.filter (fun l => l.isFileLine)).length = scenes.length + 1 ∧
    res.manifest.getLast? = some (ManifestLine.file (frameName (scenes.length - 1))) ∧
    ∀ i, i < scenes.length →
      res.manifest.get? (2 * i) = some (ManifestLine.file (frameName i)) ∧
      res.manifest.get? (2 * i + 1) =
        (scenes.get? i).map (fun sc => ManifestLine.duration sc.duration) := by
  have hman := (generate_ok_elim env st scenes audioFile outputName res hok).1
  rw [hman]
  refine ⟨?_, ?_, ?_, ?_⟩
  · rw [List.filter_append]
    simp [manifestLoop_filter_duration, isDurationLine_file]
  · rw [List.filter_append]
    simp [manifestLoop_filter_file, isFileLine_file]
  · exact List.getLast?_concat _
  · intro i hi
    have hlt : 2 * i < (manifestLoop 0 scenes).length := by
      rw [manifestLoop_length]; omega
    have hlt2 : 2 * i + 1 < (manifestLoop 0 scenes).length := by
      rw [manifestLoop_length]; omega
    obtain ⟨h1, h2⟩ := manifestLoop_get? scenes 0 i hi
    rw [List.get?_append hlt, List.get?_append hlt2, h1, h2]
    simp

/-- Witness for C2 at a concrete one-scene `generate` call. -/
theorem claim_C2_witness :
    (demoGenerateResult.manifest.filter (fun l => l.isDurationLine)).length = 1 ∧
    (demoGenerateResult.manifest.filter (fun l => l.isFileLine)).length = 2 ∧
    demoGenerateResult.manifest.getLast? = some (ManifestLine.file (frameName 0)) := by
  obtain ⟨h1, h2, h3, _⟩ := claim_C2_manifest env0 .ready [demoScene] none ("out.mp4")
    demoGenerateResult rfl
  exact ⟨h1, h2, h3⟩

theorem chainLe_concat {l : List ℚ} {b : ℚ} (hl : List.Chain' (· ≤ ·) l)
    (hb : ∀ x ∈ l, x ≤ b) : List.Chain' (· ≤ ·) (l ++ [b]) := by
  induction l with
  | nil => simp
  | cons a t ih =>
    rw [List.cons_append, List.chain'_cons']
    constructor
    · intro y hy
      cases t with
      | nil =>
        simp at hy
        subst hy
        exact hb a (by simp)
      | cons c t2 =>
        simp at hy
        subst hy
        exact (List.chain'_cons.mp hl).1
    · exact ih (List.chain'_cons'.mp hl).2 (fun x hx => hb x (by simp [hx]))

theorem progressLoop_chain (n : ℕ) : List.Chain' (· ≤ ·) (progressLoop n) := by
  cases n with
  | zero => simp [progressLoop]
  | succ m =>
    unfold progressLoop
    refine (List.chain'_map (fun i : ℕ => ((i : ℚ) / (((m + 1 : ℕ)) : ℚ)) * 50)).mpr ?_
    rw [List.chain'_range_succ]
    intro k _
    have hpos : (0 : ℚ) < ((m + 1 : ℕ) : ℚ) := by positivity
    gcongr
    exact_mod_cast Nat.le_succ k

theorem progressLoop_nonneg (n : ℕ) : ∀ p ∈ progressLoop n, 0 ≤ p := by
  intro p hp
  unfold progressLoop at hp
  obtain ⟨i, _, rfl⟩ := List.mem_map.mp hp
  exact mul_nonneg (div_nonneg (Nat.cast_nonneg i) (Nat.cast_nonneg n)) (by norm_num)

theorem progressLoop_le_100 (n : ℕ) : ∀ p ∈ progressLoop n, p ≤ 100 := by
  intro p hp
  unfold progressLoop at hp
  obtain ⟨i, hi, rfl⟩ := List.mem_map.mp hp
  rw [List.mem_range] at hi
  have hn : 0 < n := by omega
  have hq : (i : ℚ) / (n : ℚ) ≤ 1 := by
    rw [div_le_one (by exact_mod_cast hn)]
    exact_mod_cast le_of_lt hi
  calc (i : ℚ) / (n : ℚ) * 50 ≤ 1 * 50 :=
        mul_le_mul_of_nonneg_right hq (by norm_num)
    _ ≤ 100 := by norm_num

/-- C4: within one successful `generate` call the reported progress values
never decrease, are all non-negative, and the final reported value is exactly
100. -/
theorem claim_C4_progress (env : RenderEnv) (st : FFState) (scenes : List Scene)
    (audioFile : Option AudioFile) (outputName : String) (res : GenerateResult)
    (hok : generate env st scenes audioFile outputName = .ok res) :
    List.Chain' (· ≤ ·) res.progressReports ∧
    (∀ p ∈ res.progressReports, 0 ≤ p) ∧
    res.progressReports.getLast? = some 100 := by
  have hrep := (generate_ok_elim env st scenes audioFile outputName res hok).2
  rw [hrep]
  refine ⟨?_, ?_, ?_⟩
  · apply chainLe_concat
    · rw [List.chain'_cons']
      constructor
      · intro y hy
        exact progressLoop_nonneg _ _ (List.mem_of_mem_head? hy)
      · exact progressLoop_chain _
    · intro x hx
      rcases List.mem_cons.mp hx with h | h
      · subst h; norm_num
      · exact progressLoop_le_100 _ _ h
  · intro p hp
    rcases List.mem_append.mp hp with h | h
    · rcases List.mem_cons.mp h with h2 | h2
      · subst h2; exact le_refl 0
      · exact progressLoop_nonneg _ _ h2
    · simp at h; subst h; norm_num
  · exact List.getLast?_concat _

/-- Witness for C4 at a concrete one-scene `generate` call. -/
theorem claim_C4_witness :
    List.Chain' (· ≤ ·) demoGenerateResult.progressReports ∧
    demoGenerateResult.progressReports.getLast? = some 100 := by
  obtain ⟨h1, _, h3⟩ := claim_C4_progress env0 .ready [demoScene] none ("out.mp4")
    demoGenerateResult rfl
  exact ⟨h1, h3⟩

/-! ## Helper lemmas about word wrapping -/

theorem splitOnChar_ne_nil (sep : Char) (s : List Char) : splitOnChar sep s ≠ [] := by
  cases s with
  | nil => simp [splitOnChar]
  | cons c rest =>
    simp only [splitOnChar]
    split
    · simp
    · split <;> simp

theorem joinWithChar_splitOnChar (sep : Char) (s : List Char) :
    joinWithChar sep (splitOnChar sep s) = s := by
  induction s with
  | nil => rfl
  | cons c rest ih =>
    simp only [splitOnChar]
    split
    · rename_i hc
      subst hc
      cases hr : splitOnChar c rest with
      | nil => exact absurd hr (splitOnChar_ne_nil c rest)
      | cons w ws =>
        rw [hr] at ih
        simp [joinWithChar, ih]
    · cases hr : splitOnChar sep rest with
      | nil => exact absurd hr (splitOnChar_ne_nil sep rest)
      | cons w ws =>
        rw [hr] at ih
        cases ws with
        | nil => simpa [joinWithChar] using ih
        | cons w2 ws2 =>
          simp only [joinWithChar] at ih ⊢
          rw [← ih]
          simp

theorem joinMap_sep (sep : Char) : ∀ ws : List (List Char), ws ≠ [] →
    (ws.map (fun w => w ++ [sep])).flatten = joinWithChar sep ws ++ [sep] := by
  intro ws
  induction ws with
  | nil => intro h; exact absurd rfl h
  | cons w ws ih =>
    intro _
    cases ws with
    | nil => simp [joinWithChar]
    | cons w2 ws2 =>
      have h2 := ih (by simp)
      simp only [List.map_cons, List.flatten_cons] at h2 ⊢
      rw [h2]
      simp [joinWithChar]

theorem joinMap_split (text : List Char) :
    ((splitOnChar ' ' text).map (fun w => w ++ [' '])).flatten = text ++ [' '] := by
  rw [joinMap_sep ' ' _ (splitOnChar_ne_nil ' ' text), joinWithChar_splitOnChar]

theorem dropWhile_append_left (p : Char → Bool) (l₁ l₂ : List Char)
    (h : l₁.dropWhile p ≠ []) :
    (l₁ ++ l₂).dropWhile p = l₁.dropWhile p ++ l₂ := by
  induction l₁ with
  | nil => simp [List.dropWhile] at h
  | cons c t ih =>
    by_cases hc : p c = true
    · simp only [List.cons_append, List.dropWhile_cons, hc, if_true] at h ⊢
      exact ih h
    · simp [List.cons_append, List.dropWhile_cons, hc]

theorem trimL_append_space (s : List Char) : trimL (s ++ [' ']) = trimL s := by
  have hsp : Char.isWhitespace ' ' = true := rfl
  unfold trimL
  by_cases h : s.dropWhile Char.isWhitespace = []
  · have h2 : (s ++ [' ']).dropWhile Char.isWhitespace = [] := by
      rw [List.dropWhile_eq_nil_iff] at h ⊢
      intro x hx
      rcases List.mem_append.mp hx with hx | hx
      · exact h x hx
      · simp at hx; subst hx; exact hsp
    rw [h, h2]
  · rw [dropWhile_append_left _ _ _ h, List.reverse_append]
    simp [List.dropWhile_cons, hsp]

/-- When the whole text (with its trailing test space) fits under `maxWidth`
for a measure that is monotone under appending, the `wrapText` fold never
commits a line: it just accumulates all the words. -/
theorem wrapFold_no_wrap (measure : List Char → ℚ) (maxWidth : ℚ)
    (full : List Char)
    (hmono : ∀ s t : List Char, measure s ≤ measure (s ++ t))
    (hfull : measure full ≤ maxWidth) :
    ∀ (ws : List (List Char)) (l : List Char) (L : List (List Char)),
      (∃ rest, l ++ ((ws.map (fun w => w ++ [' '])).flatten ++ rest) = full) →
      ws.foldl (wrapStep measure maxWidth) ⟨l, L⟩ =
        ⟨l ++ (ws.map (fun w => w ++ [' '])).flatten, L⟩ := by
  intro ws
  induction ws with
  | nil => intro l L _; simp
  | cons w ws ih =>
    intro l L hpre
    obtain ⟨rest, hrest⟩ := hpre
    have hassoc : (l ++ w ++ [' ']) ++ ((ws.map (fun w => w ++ [' '])).flatten ++ rest) =
        full := by
      rw [← hrest]
      simp [List.append_assoc]
    have htest : measure (l ++ w ++ [' ']) ≤ maxWidth := by
      calc measure (l ++ w ++ [' '])
          ≤ measure ((l ++ w ++ [' ']) ++
              ((ws.map (fun w => w ++ [' '])).flatten ++ rest)) := hmono _ _
        _ = measure full := by rw [hassoc]
        _ ≤ maxWidth := hfull
    rw [List.foldl_cons]
    have hstep : wrapStep measure maxWidth ⟨l, L⟩ w = ⟨l ++ w ++ [' '], L⟩ := by
      unfold wrapStep
      rw [if_neg]
      intro hcond
      exact absurd hcond.1 (not_lt.mpr htest)
    rw [hstep]
    have hrec := ih (l ++ w ++ [' ']) L ⟨rest, hassoc⟩
    rw [hrec]
    simp [List.append_assoc]

/-- C5 counterexample: for the monospace measure `lenMeasure` the text
`a b` measures 3, strictly under the max width 7/2, yet `wrapText` returns
two lines (`a` and `b`) rather than one line identical to the input: the wrap
test measures the line with a trailing space appended, which pushes the width
to 4. -/
theorem claim_C5_counterexample :
    lenMeasure ['a', ' ', 'b'] < 7 / 2 ∧
    (wrapText lenMeasure ['a', ' ', 'b'] (7 / 2) 10).1 = [['a'], ['b']] ∧
    (wrapText lenMeasure ['a', ' ', 'b'] (7 / 2) 10).1 ≠ [['a', ' ', 'b']] := by
  have hsplit : splitOnChar ' ' ['a', ' ', 'b'] = [['a'], ['b']] := by decide
  have h1 : wrapStep lenMeasure (7 / 2) ⟨[], []⟩ ['a'] = ⟨['a', ' '], []⟩ := by
    unfold wrapStep
    rw [if_neg]
    · simp
    · intro hcond
      exact absurd rfl hcond.2
  have h2 : wrapStep lenMeasure (7 / 2) ⟨['a', ' '], []⟩ ['b'] = ⟨['b', ' '], [['a']]⟩ := by
    unfold wrapStep
    rw [if_pos]
    · have ht : trimL ['a', ' '] = ['a'] := by decide
      simp [ht]
    · constructor
      · norm_num [lenMeasure]
      · simp
  have heq : (wrapText lenMeasure ['a', ' ', 'b'] (7 / 2) 10).1 = [['a'], ['b']] := by
    simp only [wrapText, hsplit, List.foldl_cons, List.foldl_nil, h1, h2]
    rw [if_pos (by simp)]
    have ht : trimL ['b', ' '] = ['b'] := by decide
    simp [ht]
  refine ⟨by norm_num [lenMeasure], heq, ?_⟩
  rw [heq]
  decide

/-- C5 amended: for an append-monotone measure, a text whose measured width
including one trailing space is at most the max width wraps to exactly one
line, equal to the input trimmed of surrounding whitespace (hence identical
to the input whenever the input carries no surrounding whitespace).  Texts
within one space-width of the limit, or texts with surrounding whitespace,
are not returned verbatim. -/
theorem claim_C5_amended (measure : List Char → ℚ) (text : List Char)
    (maxWidth lineHeight : ℚ)
    (hmono : ∀ s t : List Char, measure s ≤ measure (s ++ t))
    (hfit : measure (text ++ [' ']) ≤ maxWidth) :
    (wrapText measure text maxWidth lineHeight).1 = [trimL text] := by
  have hfold := wrapFold_no_wrap measure maxWidth (text ++ [' ']) hmono hfit
    (splitOnChar ' ' text) [] [] ⟨[], by simp [joinMap_split]⟩
  rw [joinMap_split] at hfold
  simp only [wrapText, hfold, List.nil_append]
  rw [if_pos (by simp)]
  simp [trimL_append_space]

/-- Witness for C5 amended at the monospace measure and the text `hi`. -/
theorem claim_C5_witness :
    (wrapText lenMeasure ['h', 'i'] 10 1).1 = [['h', 'i']] := by
  have h := claim_C5_amended lenMeasure ['h', 'i'] 10 1
    (by
      intro s t
      simp only [lenMeasure, List.length_append]
      exact_mod_cast Nat.le_add_right s.length t.length)
    (by norm_num [lenMeasure])
  rw [h]
  decide

end StoryPipe
